import Mathlib

/-!
Verification of the proximity-matching core of the repository
(source: `src/clean_router.py`) and of the `pearson_correlation`
helper of the log analyzer (source: `src/analyze_logs.py`).

Conventions of the embedding:
* `Driver`/`Package` coordinates are integers, following the source's
  dataclass annotations (`x: int`, `y: int`) and the only data generator
  in the repository (`random.randint`).
* `max_distance` is an exact rational, replacing the Python float.
* Python `//` on integers is floor division, i.e. `Int.fdiv`.
* Python raises `ZeroDivisionError` on `x // 0`; fallible computations
  are therefore embedded in `Except`.
* `MatchResult` carries the integer squared distance `dist_sq`; the
  source stores `math.sqrt(dist_sq)`.  `Real.sqrt` is injective on the
  nonnegative reals, so equality of results and of result lists is the
  same either way, and the stored value is recovered as
  `Real.sqrt dist_sq` (see `bruteAccept_iff_sqrt` for the link between
  the embedded comparison and the source's `math.sqrt(...) < max_distance`).
-/

namespace Router

/-- `@dataclass Driver: id: int, x: int, y: int`. -/
structure Driver where
  id : Int
  x : Int
  y : Int
deriving DecidableEq, Repr

/-- `@dataclass Package: id: int, x: int, y: int, priority: str`. -/
structure Package where
  id : Int
  x : Int
  y : Int
  priority : String
deriving DecidableEq, Repr

/-- `@dataclass MatchResult: driver_id, package_id, distance`.
The source stores `distance = math.sqrt(dist_sq)`; we carry the integer
radicand `dist_sq` instead (see the file header). -/
structure MatchResult where
  driver_id : Int
  package_id : Int
  dist_sq : Int
deriving DecidableEq, Repr

/-- Python `int(q)` applied to a number: truncation toward zero. -/
def pyInt (q : ℚ) : Int := if 0 ≤ q then ⌊q⌋ else ⌈q⌉

/-- `get_grid_key(x, y, cell_size) = (int(x // cell_size), int(y // cell_size))`.
Python `//` on integers is floor division, `Int.fdiv` (the outer `int(...)`
of the source is the identity on integers). -/
def get_grid_key (x y cell_size : Int) : Int × Int :=
  (Int.fdiv x cell_size, Int.fdiv y cell_size)

/-- The grid: `defaultdict(list)` keyed by cells, modelled as an
association list in key-insertion order (Python dicts preserve
insertion order). -/
abbrev Grid := List ((Int × Int) × List Package)

/-- `grid[key].append(pkg)`: append to the bucket of `key` if present,
otherwise create a singleton bucket for `key` (new keys go last, as in a
Python dict). -/
def gridInsert : Grid → (Int × Int) → Package → Grid
  | [], k, p => [(k, [p])]
  | (k₀, b) :: rest, k, p =>
      if k₀ = k then (k₀, b ++ [p]) :: rest
      else (k₀, b) :: gridInsert rest k p

/-- Loop `for pkg in packages: grid[get_grid_key(...)].append(pkg)`. -/
def buildGrid (packages : List Package) (cell_size : Int) : Grid :=
  packages.foldl
    (fun g pkg => gridInsert g (get_grid_key pkg.x pkg.y cell_size) pkg) []

/-- Bucket lookup.  `gridFind g k = []` when `k` is absent, which is the
behaviour of the source's `if neighbor_key in grid:` guard (an absent key
contributes no packages). -/
def gridFind : Grid → (Int × Int) → List Package
  | [], _ => []
  | (k₀, b) :: rest, k => if k₀ = k then b else gridFind rest k

/-- `dist_sq = (driver.x - pkg.x)**2 + (driver.y - pkg.y)**2`. -/
def dist_sq (d : Driver) (p : Package) : Int :=
  (d.x - p.x) ^ 2 + (d.y - p.y) ^ 2

/-- The per-pair test of the optimized inner loop:
`abs(driver.x - pkg.x) <= max_distance and abs(driver.y - pkg.y) <= max_distance`
(bounding-box pre-filter) followed by `dist_sq < max_distance**2`. -/
def acceptOpt (d : Driver) (p : Package) (m : ℚ) : Bool :=
  decide (|((d.x - p.x : Int) : ℚ)| ≤ m) &&
  decide (|((d.y - p.y : Int) : ℚ)| ≤ m) &&
  decide ((dist_sq d p : ℚ) < m ^ 2)

/-- `matches.append(MatchResult(driver.id, pkg.id, math.sqrt(dist_sq)))`
guarded by `acceptOpt`. -/
def emitOpt (d : Driver) (m : ℚ) (p : Package) : Option MatchResult :=
  if acceptOpt d p m then some ⟨d.id, p.id, dist_sq d p⟩ else none

/-- `for i in range(-1, 2): for j in range(-1, 2)` — the fixed 3×3
enumeration order of the source. -/
def neighborOffsets : List (Int × Int) :=
  [(-1, -1), (-1, 0), (-1, 1), (0, -1), (0, 0), (0, 1), (1, -1), (1, 0), (1, 1)]

/-- The body of the per-driver query loop of `find_matches_optimized`:
scan the 9 neighbor cells of the driver's cell in the fixed order,
each bucket in insertion order, and emit accepted matches. -/
def driverQuery (grid : Grid) (cell_size : Int) (m : ℚ) (d : Driver) :
    List MatchResult :=
  let dk := get_grid_key d.x d.y cell_size
  neighborOffsets.flatMap (fun o =>
    (gridFind grid (dk.1 + o.1, dk.2 + o.2)).filterMap (emitOpt d m))

/-- The nine neighbor keys `(cx + i, cy + j)` scanned for a driver, in
the loop order of the source. -/
def neighborKeys (cell_size : Int) (d : Driver) : List (Int × Int) :=
  neighborOffsets.map (fun o =>
    ((get_grid_key d.x d.y cell_size).1 + o.1,
     (get_grid_key d.x d.y cell_size).2 + o.2))

/-- Two packages that agree on everything the matcher reads — `id`, `x`
and `y` — and may differ in `priority`. -/
def samePos (p q : Package) : Prop :=
  p.id = q.id ∧ p.x = q.x ∧ p.y = q.y

/-- Python exceptions that the router can raise: `x // 0` raises
`ZeroDivisionError`. -/
inductive PyError where
  | zeroDivisionError
deriving DecidableEq, Repr

/-- `find_matches_optimized(drivers, packages, max_distance)`.
`cell_size = int(max_distance)`; when that is zero, the first call to
`get_grid_key` raises `ZeroDivisionError` — while indexing the packages,
or, if there are none, while locating the first driver; the run only
completes normally with `cell_size = 0` when both input lists are empty.
Otherwise the grid is built from the packages and every driver is
queried in input order. -/
def find_matches_optimized (drivers : List Driver) (packages : List Package)
    (max_distance : ℚ) : Except PyError (List MatchResult) :=
  let cell_size := pyInt max_distance
  if cell_size = 0 ∧ (packages ≠ [] ∨ drivers ≠ []) then
    .error .zeroDivisionError
  else
    let grid := buildGrid packages cell_size
    .ok (drivers.flatMap (driverQuery grid cell_size max_distance))

/-- The brute-force test `math.sqrt(dist_sq) < max_distance`: in exact
arithmetic `√d < m ↔ 0 < m ∧ d < m ^ 2` (proved in
`bruteAccept_iff_sqrt`), which is the computable form used here. -/
def bruteAccept (d : Driver) (p : Package) (m : ℚ) : Bool :=
  decide (0 < m) && decide ((dist_sq d p : ℚ) < m ^ 2)

/-- `matches.append(MatchResult(driver.id, pkg.id, dist))` guarded by
`dist < max_distance`. -/
def bruteEmit (d : Driver) (m : ℚ) (p : Package) : Option MatchResult :=
  if bruteAccept d p m then some ⟨d.id, p.id, dist_sq d p⟩ else none

/-- `find_matches_brute_force(drivers, packages, max_distance)`: the
all-pairs loop, drivers outer, packages inner, both in input order. -/
def find_matches_brute_force (drivers : List Driver) (packages : List Package)
    (max_distance : ℚ) : List MatchResult :=
  drivers.flatMap (fun d => packages.filterMap (bruteEmit d max_distance))

/-- The `(driver_id, package_id)` pairs of a match list. -/
def matchPairs (l : List MatchResult) : List (Int × Int) :=
  l.map (fun r => (r.driver_id, r.package_id))

/-- Variant of the per-pair test with the bounding-box pre-filter
removed (only the exact squared-distance comparison); used to state that
the pre-filter is conservative. -/
def acceptNoBox (d : Driver) (p : Package) (m : ℚ) : Bool :=
  decide ((dist_sq d p : ℚ) < m ^ 2)

/-- `emitOpt` with the pre-filter removed. -/
def emitNoBox (d : Driver) (m : ℚ) (p : Package) : Option MatchResult :=
  if acceptNoBox d p m then some ⟨d.id, p.id, dist_sq d p⟩ else none

/-- Per-driver query with the pre-filter removed. -/
def driverQueryNoBox (grid : Grid) (cell_size : Int) (m : ℚ) (d : Driver) :
    List MatchResult :=
  let dk := get_grid_key d.x d.y cell_size
  neighborOffsets.flatMap (fun o =>
    (gridFind grid (dk.1 + o.1, dk.2 + o.2)).filterMap (emitNoBox d m))

/-- `find_matches_optimized` with the bounding-box pre-filter removed,
everything else unchanged. -/
def find_matches_optimized_nofilter (drivers : List Driver)
    (packages : List Package) (max_distance : ℚ) :
    Except PyError (List MatchResult) :=
  let cell_size := pyInt max_distance
  if cell_size = 0 ∧ (packages ≠ [] ∨ drivers ≠ []) then
    .error .zeroDivisionError
  else
    let grid := buildGrid packages cell_size
    .ok (drivers.flatMap (driverQueryNoBox grid cell_size max_distance))

end Router

namespace LogStats

/-- Python exceptions relevant to `pearson_correlation`:
`statistics.mean([])` raises `StatisticsError`, and `/` by zero raises
`ZeroDivisionError`. -/
inductive StatError where
  | statisticsError
  | zeroDivisionError
deriving DecidableEq, Repr

/-- `statistics.mean(xs)` over exact rationals: the sum divided by the
length; raises on an empty list. -/
def pyMean (xs : List ℚ) : Except StatError ℚ :=
  if xs.length = 0 then .error .statisticsError
  else .ok (xs.sum / (xs.length : ℚ))

/-- The (total) mean used in statements: equal to the value of `pyMean`
whenever the list is nonempty. -/
def meanQ (xs : List ℚ) : ℚ := xs.sum / (xs.length : ℚ)

/-- `sum((x - mean_x) ** 2 for x in xs)`. -/
def sqDev (xs : List ℚ) : ℚ := (xs.map (fun x => (x - meanQ xs) ^ 2)).sum

/-- `pearson_correlation(xs, ys)` from `src/analyze_logs.py`.
The source returns the float `numerator / (Sxx * Syy) ** 0.5` when the
denominator is nonzero, `0.0` otherwise.  Working in exact arithmetic we
return the pair `(numerator, Sxx * Syy)`; the source's value is
`numerator / √(Sxx * Syy)`, and the `return 0.0` branches are encoded as
`(0, 1)` (value `0 / √1 = 0`).  The guard `denominator != 0` is
`Sxx * Syy ≠ 0`, since `√s = 0 ↔ s = 0` for `s ≥ 0`.  The division by
the denominator only happens under that guard, hence cannot raise;
`statistics.mean` on an empty argument list is the one fallible call
(reached only when `len(xs) ≥ 2` and `ys` is empty). -/
def pearson_correlation (xs ys : List ℚ) : Except StatError (ℚ × ℚ) :=
  if xs.length < 2 then .ok (0, 1)
  else if ys.length = 0 then .error .statisticsError
  else
    let mean_x := meanQ xs
    let mean_y := meanQ ys
    let numerator :=
      ((xs.zip ys).map (fun q => (q.1 - mean_x) * (q.2 - mean_y))).sum
    let dsq := sqDev xs * sqDev ys
    if dsq ≠ 0 then .ok (numerator, dsq) else .ok (0, 1)

end LogStats

deriving instance DecidableEq for Except

namespace Router

theorem pyInt_of_nonneg {q : ℚ} (h : 0 ≤ q) : pyInt q = ⌊q⌋ := if_pos h

theorem pyInt_pos_iff {q : ℚ} : 0 < pyInt q ↔ 1 ≤ q := by
  constructor
  · intro h
    by_cases hq : 0 ≤ q
    · rw [pyInt, if_pos hq] at h
      have h1 : (1 : ℤ) ≤ ⌊q⌋ := h
      have := Int.le_floor.mp h1
      exact_mod_cast this
    · rw [pyInt, if_neg hq] at h
      have hq' : q ≤ 0 := le_of_lt (not_le.mp hq)
      have : ⌈q⌉ ≤ 0 := Int.ceil_le.mpr (by exact_mod_cast hq')
      omega
  · intro h
    have h0 : (0 : ℚ) ≤ q := le_trans zero_le_one h
    rw [pyInt, if_pos h0]
    have h1 : (1 : ℤ) ≤ ⌊q⌋ := Int.le_floor.mpr (by exact_mod_cast h)
    omega

theorem dist_sq_nonneg (d : Driver) (p : Package) : 0 ≤ dist_sq d p :=
  add_nonneg (sq_nonneg _) (sq_nonneg _)

theorem dist_sq_cast (d : Driver) (p : Package) :
    ((dist_sq d p : ℤ) : ℚ) = ((d.x - p.x : ℤ) : ℚ) ^ 2 + ((d.y - p.y : ℤ) : ℚ) ^ 2 := by
  rw [dist_sq]; push_cast; ring

/-- The embedded brute-force test agrees with the source's
`math.sqrt(dist_sq) < max_distance`, read in exact real arithmetic. -/
theorem bruteAccept_iff_sqrt (d : Driver) (p : Package) (m : ℚ) :
    bruteAccept d p m = true ↔ Real.sqrt ((dist_sq d p : ℤ) : ℝ) < (m : ℝ) := by
  rw [bruteAccept, Bool.and_eq_true, decide_eq_true_eq, decide_eq_true_eq]
  constructor
  · rintro ⟨hm, hlt⟩
    have hm' : (0 : ℝ) < (m : ℝ) := by exact_mod_cast hm
    rw [Real.sqrt_lt' hm']
    exact_mod_cast hlt
  · intro h
    have hm' : (0 : ℝ) < (m : ℝ) := lt_of_le_of_lt (Real.sqrt_nonneg _) h
    refine ⟨by exact_mod_cast hm', ?_⟩
    have := (Real.sqrt_lt' hm').mp h
    exact_mod_cast this

theorem abs_coords_lt {d : Driver} {p : Package} {m : ℚ} (hm : 0 < m)
    (h : ((dist_sq d p : ℤ) : ℚ) < m ^ 2) :
    |((d.x - p.x : ℤ) : ℚ)| < m ∧ |((d.y - p.y : ℤ) : ℚ)| < m := by
  rw [dist_sq_cast] at h
  constructor
  · exact abs_lt_of_sq_lt_sq (by nlinarith [sq_nonneg ((d.y - p.y : ℤ) : ℚ)]) hm.le
  · exact abs_lt_of_sq_lt_sq (by nlinarith [sq_nonneg ((d.x - p.x : ℤ) : ℚ)]) hm.le

/-- For a positive threshold, the bounding-box pre-filter never rejects a
pair whose squared distance passes the exact test, so the optimized
per-pair test coincides with the brute-force test. -/
theorem acceptOpt_eq_bruteAccept {m : ℚ} (hm : 0 < m) (d : Driver) (p : Package) :
    acceptOpt d p m = bruteAccept d p m := by
  rw [acceptOpt, bruteAccept]
  by_cases h : ((dist_sq d p : ℤ) : ℚ) < m ^ 2
  · obtain ⟨hx, hy⟩ := abs_coords_lt hm h
    push_cast at hx hy
    simp [h, hx.le, hy.le, hm]
  · simp [h]

theorem emitOpt_eq_bruteEmit {m : ℚ} (hm : 0 < m) (d : Driver) :
    emitOpt d m = bruteEmit d m := by
  funext p
  rw [emitOpt, bruteEmit, acceptOpt_eq_bruteAccept hm]

theorem fdiv_eq_floor (x : ℤ) {c : ℤ} (hc : 0 < c) :
    Int.fdiv x c = ⌊((x : ℚ) / (c : ℚ))⌋ := by
  rw [Int.fdiv_eq_ediv x hc.le]
  obtain ⟨n, rfl⟩ : ∃ n : ℕ, c = (n : ℤ) := ⟨c.toNat, (Int.toNat_of_nonneg hc.le).symm⟩
  exact_mod_cast (Rat.floor_intCast_div_natCast x n).symm

theorem fdiv_le_fdiv {a b c : ℤ} (hc : 0 < c) (h : a ≤ b) :
    Int.fdiv a c ≤ Int.fdiv b c := by
  rw [Int.fdiv_eq_ediv a hc.le, Int.fdiv_eq_ediv b hc.le]
  exact Int.ediv_le_ediv hc h

theorem fdiv_add_mul_self {a c : ℤ} (hc : 0 < c) (b : ℤ) :
    Int.fdiv (a + b * c) c = Int.fdiv a c + b := by
  rw [Int.fdiv_eq_ediv _ hc.le, Int.fdiv_eq_ediv _ hc.le]
  exact Int.add_mul_ediv_right a b hc.ne'

/-- Two coordinates at most one cell size apart land in the same grid
cell or in adjacent cells. -/
theorem fdiv_offset_bound {x₁ x₂ c : ℤ} (hc : 0 < c) (h : |x₁ - x₂| ≤ c) :
    -1 ≤ Int.fdiv x₁ c - Int.fdiv x₂ c ∧ Int.fdiv x₁ c - Int.fdiv x₂ c ≤ 1 := by
  rw [abs_le] at h
  have h1 : x₂ + (-1) * c ≤ x₁ := by omega
  have h2 : x₁ ≤ x₂ + 1 * c := by omega
  have lo := fdiv_le_fdiv hc h1
  have hi := fdiv_le_fdiv hc h2
  rw [fdiv_add_mul_self hc] at lo hi
  omega

theorem mem_neighborOffsets {u v : ℤ} (hu₁ : -1 ≤ u) (hu₂ : u ≤ 1)
    (hv₁ : -1 ≤ v) (hv₂ : v ≤ 1) : (u, v) ∈ neighborOffsets := by
  interval_cases u <;> interval_cases v <;> simp [neighborOffsets]

theorem neighborOffsets_nodup : neighborOffsets.Nodup := by decide

end Router

namespace Router

theorem filterMap_const_none {α β : Type _} (l : List α) :
    l.filterMap (fun _ => (none : Option β)) = [] := by
  induction l with
  | nil => rfl
  | cons a l ih => rw [List.filterMap_cons]; exact ih

theorem filterMap_congr_fn {α β : Type _} {f g : α → Option β} (l : List α)
    (h : ∀ a ∈ l, f a = g a) : l.filterMap f = l.filterMap g := by
  induction l with
  | nil => rfl
  | cons a l ih =>
    rw [List.filterMap_cons, List.filterMap_cons, h a (by simp),
      ih (fun a ha => h a (by simp [ha]))]

/-- Interleaving two disjoint `filterMap`s of the same list is, up to
permutation, one `filterMap` of their pointwise union. -/
theorem filterMap_append_perm_or {α β : Type _} (f g : α → Option β) (l : List α)
    (hdisj : ∀ a, f a = none ∨ g a = none) :
    (l.filterMap f ++ l.filterMap g).Perm
      (l.filterMap (fun a => (f a).or (g a))) := by
  induction l with
  | nil => simp
  | cons a l ih =>
    rcases hf : f a with _ | b
    · rcases hg : g a with _ | c
      · rw [List.filterMap_cons, List.filterMap_cons, List.filterMap_cons, hf, hg]
        simpa using ih
      · rw [List.filterMap_cons, List.filterMap_cons, List.filterMap_cons, hf, hg]
        exact List.perm_middle.trans (ih.cons c)
    · have hg : g a = none := by
        rcases hdisj a with h | h
        · rw [hf] at h; cases h
        · exact h
      rw [List.filterMap_cons, List.filterMap_cons, List.filterMap_cons, hf, hg]
      exact ih.cons b

/-- Scanning a list once per key of a duplicate-free key list and
keeping the entries with that key is, up to permutation, one scan
keeping the entries whose key occurs in the key list. -/
theorem flatMap_filterMap_perm {α β κ : Type _} [DecidableEq κ] (keyOf : α → κ)
    (f : α → Option β) (l : List α) :
    ∀ K : List κ, K.Nodup →
      (K.flatMap (fun k =>
          l.filterMap (fun a => if keyOf a = k then f a else none))).Perm
        (l.filterMap (fun a => if keyOf a ∈ K then f a else none)) := by
  intro K
  induction K with
  | nil =>
    intro _
    simp only [List.flatMap_nil]
    rw [show (fun a => if keyOf a ∈ ([] : List κ) then f a else none)
        = fun _ => none from funext (fun a => by simp), filterMap_const_none]
  | cons k K ih =>
    intro hnd
    have hk : k ∉ K := (List.nodup_cons.mp hnd).1
    rw [List.flatMap_cons]
    refine ((ih (List.nodup_cons.mp hnd).2).append_left _).trans ?_
    have hdisj : ∀ a, (if keyOf a = k then f a else none) = none ∨
        (if keyOf a ∈ K then f a else none) = none := by
      intro a
      by_cases h : keyOf a = k
      · right; rw [if_neg]; rw [h]; exact hk
      · left; rw [if_neg h]
    refine (filterMap_append_perm_or _ _ l hdisj).trans ?_
    rw [filterMap_congr_fn l (g := fun a => if keyOf a ∈ k :: K then f a else none)]
    intro a _
    by_cases h : keyOf a = k
    · simp [h, hk, Option.or_none]
    · by_cases h2 : keyOf a ∈ K <;> simp [h, h2]

theorem gridFind_gridInsert (g : Grid) (k' k : Int × Int) (p : Package) :
    gridFind (gridInsert g k' p) k =
      if k' = k then gridFind g k ++ [p] else gridFind g k := by
  induction g with
  | nil =>
    by_cases h : k' = k <;> simp [gridInsert, gridFind, h]
  | cons e g ih =>
    obtain ⟨k₀, b⟩ := e
    by_cases h0 : k₀ = k'
    · subst h0
      by_cases h : k₀ = k <;> simp [gridInsert, gridFind, h]
    · by_cases h : k₀ = k
      · subst h
        have : k' ≠ k₀ := fun hc => h0 hc.symm
        simp [gridInsert, gridFind, h0, this]
      · simp [gridInsert, gridFind, h0, h, ih]

theorem gridFind_foldl (c : Int) (k : Int × Int) (ps : List Package) :
    ∀ g : Grid,
      gridFind (ps.foldl
          (fun g pkg => gridInsert g (get_grid_key pkg.x pkg.y c) pkg) g) k
        = gridFind g k
          ++ ps.filter (fun p => decide (get_grid_key p.x p.y c = k)) := by
  induction ps with
  | nil => intro g; simp
  | cons p ps ih =>
    intro g
    rw [List.foldl_cons, ih, gridFind_gridInsert, List.filter_cons]
    by_cases h : get_grid_key p.x p.y c = k
    · rw [if_pos h, if_pos (by simpa using h)]
      simp
    · rw [if_neg h, if_neg (by simpa using h)]

/-- The bucket of key `k` in the built grid is exactly the input-order
sublist of the packages whose cell key is `k`. -/
theorem gridFind_buildGrid (ps : List Package) (c : Int) (k : Int × Int) :
    gridFind (buildGrid ps c) k
      = ps.filter (fun p => decide (get_grid_key p.x p.y c = k)) := by
  have h := gridFind_foldl c k ps []
  rw [buildGrid, h]
  rfl

theorem flatten_gridInsert (g : Grid) (k : Int × Int) (p : Package) :
    ((gridInsert g k p).flatMap (fun e => e.2)).Perm
      (g.flatMap (fun e => e.2) ++ [p]) := by
  induction g with
  | nil => simp [gridInsert]
  | cons e g ih =>
    obtain ⟨k₀, b⟩ := e
    by_cases h : k₀ = k
    · subst h
      rw [gridInsert, if_pos rfl, List.flatMap_cons, List.flatMap_cons,
        List.append_assoc, List.append_assoc]
      exact List.Perm.append_left b List.perm_append_comm
    · rw [gridInsert, if_neg h, List.flatMap_cons, List.flatMap_cons,
        List.append_assoc]
      exact List.Perm.append_left b ih

/-- No package is dropped or duplicated: the concatenation of all
buckets of the built grid is a permutation of the package list. -/
theorem flatten_buildGrid (ps : List Package) (c : Int) :
    ((buildGrid ps c).flatMap (fun e => e.2)).Perm ps := by
  suffices h : ∀ g : Grid,
      ((ps.foldl (fun g pkg => gridInsert g (get_grid_key pkg.x pkg.y c) pkg)
          g).flatMap (fun e => e.2)).Perm (g.flatMap (fun e => e.2) ++ ps) by
    simpa [buildGrid] using h []
  induction ps with
  | nil => intro g; simp
  | cons p ps ih =>
    intro g
    rw [List.foldl_cons]
    refine (ih _).trans ?_
    refine ((flatten_gridInsert g _ p).append_right ps).trans ?_
    rw [List.append_assoc]
    exact List.Perm.refl _

end Router

namespace Router

theorem neighborKeys_nodup (c : Int) (d : Driver) : (neighborKeys c d).Nodup := by
  refine List.Nodup.map ?_ neighborOffsets_nodup
  intro a b hab
  obtain ⟨a₁, a₂⟩ := a
  obtain ⟨b₁, b₂⟩ := b
  simp only [Prod.mk.injEq] at hab
  exact Prod.ext (by omega) (by omega)

theorem driverQuery_eq_flatMap_keys (grid : Grid) (c : Int) (m : ℚ) (d : Driver) :
    driverQuery grid c m d
      = (neighborKeys c d).flatMap (fun k => (gridFind grid k).filterMap (emitOpt d m)) := by
  rw [driverQuery, neighborKeys, List.flatMap_map]

/-- Completeness of the 3×3 scan when the derived cell size is positive:
any package within the match distance of a driver lies in one of the
nine scanned cells. -/
theorem key_mem_neighborKeys {m : ℚ} (hs : 0 < pyInt m) (d : Driver) (p : Package)
    (h : ((dist_sq d p : ℤ) : ℚ) < m ^ 2) :
    get_grid_key p.x p.y (pyInt m) ∈ neighborKeys (pyInt m) d := by
  have hm1 : 1 ≤ m := pyInt_pos_iff.mp hs
  have hm0 : 0 < m := lt_of_lt_of_le zero_lt_one hm1
  obtain ⟨hx, hy⟩ := abs_coords_lt hm0 h
  have hsfloor : pyInt m = ⌊m⌋ := pyInt_of_nonneg hm0.le
  have cast_abs : ∀ z : ℤ, ((|z| : ℤ) : ℚ) = |(z : ℚ)| := fun z => by push_cast; rfl
  have hx' : |p.x - d.x| ≤ pyInt m := by
    rw [hsfloor]
    refine Int.le_floor.mpr ?_
    rw [cast_abs]
    push_cast
    push_cast at hx
    rw [abs_sub_comm]
    exact hx.le
  have hy' : |p.y - d.y| ≤ pyInt m := by
    rw [hsfloor]
    refine Int.le_floor.mpr ?_
    rw [cast_abs]
    push_cast
    push_cast at hy
    rw [abs_sub_comm]
    exact hy.le
  have hbx := fdiv_offset_bound hs hx'
  have hby := fdiv_offset_bound hs hy'
  rw [neighborKeys]
  refine List.mem_map.mpr
    ⟨(Int.fdiv p.x (pyInt m) - Int.fdiv d.x (pyInt m),
      Int.fdiv p.y (pyInt m) - Int.fdiv d.y (pyInt m)), ?_, ?_⟩
  · exact mem_neighborOffsets hbx.1 hbx.2 hby.1 hby.2
  · rw [get_grid_key, get_grid_key]
    refine Prod.ext ?_ ?_ <;> dsimp only <;> omega

theorem driverQuery_perm_brute {m : ℚ} (hs : 0 < pyInt m)
    (ps : List Package) (d : Driver) :
    (driverQuery (buildGrid ps (pyInt m)) (pyInt m) m d).Perm
      (ps.filterMap (bruteEmit d m)) := by
  have hm1 : 1 ≤ m := pyInt_pos_iff.mp hs
  have hm0 : 0 < m := lt_of_lt_of_le zero_lt_one hm1
  rw [driverQuery_eq_flatMap_keys]
  have step1 : ∀ k : Int × Int,
      (gridFind (buildGrid ps (pyInt m)) k).filterMap (emitOpt d m)
        = ps.filterMap (fun p =>
            if get_grid_key p.x p.y (pyInt m) = k then emitOpt d m p else none) := by
    intro k
    rw [gridFind_buildGrid, List.filterMap_filter]
    exact filterMap_congr_fn ps (fun a _ => by by_cases h : get_grid_key a.x a.y (pyInt m) = k <;> simp [h])
  rw [show (fun k => (gridFind (buildGrid ps (pyInt m)) k).filterMap (emitOpt d m))
      = fun k => ps.filterMap (fun p =>
          if get_grid_key p.x p.y (pyInt m) = k then emitOpt d m p else none)
    from funext step1]
  refine (flatMap_filterMap_perm (fun p => get_grid_key p.x p.y (pyInt m))
    (emitOpt d m) ps _ (neighborKeys_nodup _ d)).trans ?_
  rw [filterMap_congr_fn ps (g := bruteEmit d m)]
  intro p _
  by_cases hacc : bruteAccept d p m = true
  · have hlt : ((dist_sq d p : ℤ) : ℚ) < m ^ 2 := by
      rw [bruteAccept, Bool.and_eq_true, decide_eq_true_eq, decide_eq_true_eq] at hacc
      exact hacc.2
    rw [if_pos (key_mem_neighborKeys hs d p hlt), emitOpt_eq_bruteEmit hm0]
  · have : emitOpt d m p = none := by
      rw [emitOpt_eq_bruteEmit hm0, bruteEmit, if_neg hacc]
    rw [this, bruteEmit, if_neg hacc, ite_self]

/-- Main equivalence: when the derived cell size `int(max_distance)` is
positive, the optimized pipeline completes and its match list is a
permutation of the brute-force match list (same multiset of results, in
a possibly different order). -/
theorem optimized_perm_brute {m : ℚ} (hs : 0 < pyInt m)
    (ds : List Driver) (ps : List Package) :
    ∃ l, find_matches_optimized ds ps m = .ok l
      ∧ l.Perm (find_matches_brute_force ds ps m) := by
  refine ⟨ds.flatMap (driverQuery (buildGrid ps (pyInt m)) (pyInt m) m), ?_, ?_⟩
  · simp only [find_matches_optimized]
    rw [if_neg (fun hc => absurd hc.1 (by omega))]
  · rw [find_matches_brute_force]
    induction ds with
    | nil => exact List.Perm.refl _
    | cons d ds ih =>
      rw [List.flatMap_cons, List.flatMap_cons]
      exact (driverQuery_perm_brute hs ps d).append ih

end Router

namespace Router

/-- Normal form of a successful optimized run: agent-major over the
drivers, then the fixed 3×3 neighbor order, each bucket being the
input-order sublist of packages keyed to that cell. -/
theorem optimized_normal_form {m : ℚ} (hs : pyInt m ≠ 0)
    (ds : List Driver) (ps : List Package) :
    find_matches_optimized ds ps m
      = .ok (ds.flatMap (fun d =>
          neighborOffsets.flatMap (fun o =>
            (ps.filter (fun p => decide (get_grid_key p.x p.y (pyInt m)
                = ((get_grid_key d.x d.y (pyInt m)).1 + o.1,
                   (get_grid_key d.x d.y (pyInt m)).2 + o.2)))).filterMap
              (emitOpt d m)))) := by
  simp only [find_matches_optimized]
  rw [if_neg (fun hc => hs hc.1)]
  congr 1
  apply congrArg
  funext d
  simp only [driverQuery]
  apply congrArg
  funext o
  rw [gridFind_buildGrid]

theorem acceptOpt_false_of_nonpos {m : ℚ} (hm : m ≤ 0) (d : Driver) (p : Package) :
    acceptOpt d p m = false := by
  rw [acceptOpt]
  rcases lt_or_eq_of_le hm with hlt | heq
  · have h1 : decide (|((d.x - p.x : Int) : ℚ)| ≤ m) = false :=
      decide_eq_false (fun hc => absurd (le_trans (abs_nonneg _) hc) (not_le.mpr hlt))
    rw [h1, Bool.false_and, Bool.false_and]
  · subst heq
    have h0 : (0 : ℚ) ^ 2 ≤ ((dist_sq d p : ℤ) : ℚ) := by
      rw [show ((0 : ℚ) ^ 2) = 0 by norm_num]
      exact_mod_cast dist_sq_nonneg d p
    rw [decide_eq_false (not_lt.mpr h0), Bool.and_false]

/-- With a nonpositive threshold the source performs no validation:
either the derived cell size is zero and a `ZeroDivisionError` escapes
(as soon as there is anything to hash), or the run completes normally
with an empty match list. -/
theorem optimized_nonpos {m : ℚ} (hm : m ≤ 0) (ds : List Driver) (ps : List Package) :
    find_matches_optimized ds ps m
      = if pyInt m = 0 ∧ (ps ≠ [] ∨ ds ≠ []) then .error .zeroDivisionError
        else .ok [] := by
  by_cases hc : pyInt m = 0 ∧ (ps ≠ [] ∨ ds ≠ [])
  · simp only [find_matches_optimized]
    rw [if_pos hc, if_pos hc]
  · simp only [find_matches_optimized]
    rw [if_neg hc, if_neg hc]
    congr 1
    refine List.flatMap_eq_nil_iff.mpr (fun d _ => ?_)
    simp only [driverQuery]
    refine List.flatMap_eq_nil_iff.mpr (fun o _ => ?_)
    rw [filterMap_congr_fn _ (g := fun _ => none), filterMap_const_none]
    intro p _
    rw [emitOpt, acceptOpt_false_of_nonpos hm, if_neg (by simp)]

theorem acceptOpt_eq_acceptNoBox {m : ℚ} (hm : 0 < m) (d : Driver) (p : Package) :
    acceptOpt d p m = acceptNoBox d p m := by
  rw [acceptOpt, acceptNoBox]
  by_cases h : ((dist_sq d p : ℤ) : ℚ) < m ^ 2
  · obtain ⟨hx, hy⟩ := abs_coords_lt hm h
    push_cast at hx hy
    simp [h, hx.le, hy.le]
  · simp [h]

theorem emitOpt_eq_emitNoBox {m : ℚ} (hm : 0 < m) (d : Driver) :
    emitOpt d m = emitNoBox d m := by
  funext p
  rw [emitOpt, emitNoBox, acceptOpt_eq_acceptNoBox hm]

/-- Removing the bounding-box pre-filter changes nothing for a positive
threshold. -/
theorem optimized_eq_nofilter {m : ℚ} (hm : 0 < m) (ds : List Driver) (ps : List Package) :
    find_matches_optimized ds ps m = find_matches_optimized_nofilter ds ps m := by
  simp only [find_matches_optimized, find_matches_optimized_nofilter]
  by_cases hc : pyInt m = 0 ∧ (ps ≠ [] ∨ ds ≠ [])
  · rw [if_pos hc, if_pos hc]
  · rw [if_neg hc, if_neg hc]
    congr 1
    apply congrArg
    funext d
    simp only [driverQuery, driverQueryNoBox]
    apply congrArg
    funext o
    rw [emitOpt_eq_emitNoBox hm]

theorem forall2_filterMap_eq {α β γ : Type _} {R : α → β → Prop}
    {f : α → Option γ} {g : β → Option γ} (h : ∀ a b, R a b → f a = g b) :
    ∀ {l : List α} {l' : List β}, List.Forall₂ R l l' →
      l.filterMap f = l'.filterMap g := by
  intro l l' hll
  induction hll with
  | nil => rfl
  | cons hab _ ih => rw [List.filterMap_cons, List.filterMap_cons, h _ _ hab, ih]

theorem samePos_emitOpt {p q : Package} (h : samePos p q) (d : Driver) (m : ℚ) :
    emitOpt d m p = emitOpt d m q := by
  obtain ⟨h1, h2, h3⟩ := h
  simp only [emitOpt, acceptOpt, dist_sq, h1, h2, h3]

theorem samePos_bruteEmit {p q : Package} (h : samePos p q) (d : Driver) (m : ℚ) :
    bruteEmit d m p = bruteEmit d m q := by
  obtain ⟨h1, h2, h3⟩ := h
  simp only [bruteEmit, bruteAccept, dist_sq, h1, h2, h3]

theorem samePos_get_grid_key {p q : Package} (h : samePos p q) (c : Int) :
    get_grid_key p.x p.y c = get_grid_key q.x q.y c := by
  rw [h.2.1, h.2.2]

end Router

namespace Router

/-- Claim C1, counterexample: at `max_distance = 1/2 > 0` (derived cell
size `int(0.5) = 0`) the grid pipeline raises `ZeroDivisionError` and
emits no pairs at all, while the brute-force oracle emits the pair
`(1, 2)` — so as stated, for every `max_distance > 0`, the claim fails. -/
theorem C1_counterexample :
    (mkRat 1 2 : ℚ) = 1 / 2
    ∧ (0 : ℚ) < mkRat 1 2
    ∧ find_matches_optimized [⟨1, 0, 0⟩] [⟨2, 0, 0, "high"⟩] (mkRat 1 2)
        = .error .zeroDivisionError
    ∧ matchPairs (find_matches_brute_force [⟨1, 0, 0⟩] [⟨2, 0, 0, "high"⟩]
        (mkRat 1 2)) = [(1, 2)] :=
  ⟨by norm_num [mkRat], by decide, by decide, by decide⟩

/-- Claim C1, amended: for every `max_distance ≥ 1` (equivalently, a
positive derived cell size `int(max_distance)`), the optimized pipeline
completes and the set of `(driver_id, package_id)` pairs and the list
cardinality agree with the brute-force oracle. -/
theorem C1_grid_equals_brute_for_ge_one (ds : List Driver) (ps : List Package)
    (m : ℚ) (hm : 1 ≤ m) :
    ∃ l, find_matches_optimized ds ps m = .ok l
      ∧ (matchPairs l).toFinset
          = (matchPairs (find_matches_brute_force ds ps m)).toFinset
      ∧ l.length = (find_matches_brute_force ds ps m).length := by
  obtain ⟨l, hok, hperm⟩ := optimized_perm_brute (pyInt_pos_iff.mpr hm) ds ps
  exact ⟨l, hok, List.toFinset_eq_of_perm _ _ (hperm.map _), hperm.length_eq⟩

/-- Claim C1, witness at `max_distance = 50`. -/
theorem C1_witness :
    (1 : ℚ) ≤ 50
    ∧ ∃ l, find_matches_optimized [⟨1, 0, 0⟩] [⟨2, 30, 0, "high"⟩] 50 = .ok l
        ∧ (matchPairs l).toFinset = (matchPairs (find_matches_brute_force
            [⟨1, 0, 0⟩] [⟨2, 30, 0, "high"⟩] 50)).toFinset
        ∧ l.length
            = (find_matches_brute_force [⟨1, 0, 0⟩] [⟨2, 30, 0, "high"⟩] 50).length :=
  ⟨by norm_num, C1_grid_equals_brute_for_ge_one _ _ 50 (by norm_num)⟩

/-- Claim C2: the code derives `cell_size = int(max_distance)`, which
truncates — at `max_distance = 101/2` the cell size is `50 < 101/2`,
not equal to `max_distance` as claimed, and at `max_distance = 1/2` it
is `0`, not strictly positive (so the run fails with
`ZeroDivisionError`); this contradicts the source's own comment that the
cell size is "equal to or slightly larger than max_distance". -/
theorem C2_cell_size_is_truncated :
    (mkRat 101 2 : ℚ) = 101 / 2
    ∧ pyInt (mkRat 101 2) = 50
    ∧ (50 : ℚ) < mkRat 101 2
    ∧ pyInt (mkRat 1 2) = 0
    ∧ find_matches_optimized [⟨3, 0, 0⟩] [⟨4, 0, 0, "low"⟩] (mkRat 1 2)
        = .error .zeroDivisionError :=
  ⟨by norm_num [mkRat], by decide, by decide, by decide, by decide⟩

/-- Claim C3: in both algorithms a pair is accepted iff its Euclidean
distance is strictly below `max_distance`, equivalently iff its squared
distance is strictly below `max_distance ^ 2`; the boundary pair —
driver `(0,0)`, package `(50,0)`, `max_distance = 50` — produces no
match in either algorithm. -/
theorem C3_strict_boundary :
    (∀ (d : Driver) (p : Package) (m : ℚ), 0 < m →
      (bruteAccept d p m = true ↔ Real.sqrt ((dist_sq d p : ℤ) : ℝ) < (m : ℝ))
      ∧ (acceptOpt d p m = true ↔ Real.sqrt ((dist_sq d p : ℤ) : ℝ) < (m : ℝ))
      ∧ (acceptOpt d p m = true ↔ (dist_sq d p : ℚ) < m ^ 2))
    ∧ find_matches_optimized [⟨1, 0, 0⟩] [⟨2, 50, 0, "high"⟩] 50 = .ok []
    ∧ find_matches_brute_force [⟨1, 0, 0⟩] [⟨2, 50, 0, "high"⟩] 50 = [] := by
  refine ⟨?_, by decide, by decide⟩
  intro d p m hm
  have e := acceptOpt_eq_bruteAccept hm d p
  refine ⟨bruteAccept_iff_sqrt d p m,
    by rw [e]; exact bruteAccept_iff_sqrt d p m, ?_⟩
  rw [e, bruteAccept, Bool.and_eq_true, decide_eq_true_eq, decide_eq_true_eq]
  exact ⟨fun h => h.2, fun h => ⟨hm, h⟩⟩

/-- Claim C3, witness: the inclusive pair driver `(0,0)`, package
`(30,0)` at `max_distance = 50`. -/
theorem C3_witness :
    (0 : ℚ) < 50
    ∧ (bruteAccept ⟨1, 0, 0⟩ ⟨2, 30, 0, "high"⟩ 50 = true
        ↔ Real.sqrt ((dist_sq ⟨1, 0, 0⟩ ⟨2, 30, 0, "high"⟩ : ℤ) : ℝ) < (50 : ℝ)) :=
  ⟨by norm_num, (C3_strict_boundary.1 ⟨1, 0, 0⟩ ⟨2, 30, 0, "high"⟩ 50 (by norm_num)).1⟩

/-- Claim C4, counterexample: with `max_distance = -1 ≤ 0` the matcher
raises nothing at all — there is no `ConfigurationError` in the code; it
proceeds to completion and returns an empty match list. -/
theorem C4_counterexample :
    find_matches_optimized [⟨5, 1, 1⟩] [⟨6, 1, 1, "low"⟩] (-1) = .ok [] := by
  decide

/-- Claim C4, amended: the code performs no configuration validation.
For `max_distance ≤ 0`: if the derived `cell_size = int(max_distance)`
is zero and there is at least one package or driver, the run fails with
`ZeroDivisionError` inside `get_grid_key` (after work has begun), and in
every other case it completes normally with an empty match list. -/
theorem C4_no_validation (ds : List Driver) (ps : List Package) {m : ℚ}
    (hm : m ≤ 0) :
    find_matches_optimized ds ps m
      = if pyInt m = 0 ∧ (ps ≠ [] ∨ ds ≠ []) then .error .zeroDivisionError
        else .ok [] :=
  optimized_nonpos hm ds ps

/-- Claim C4, witness at `max_distance = 0` with one driver and no
packages: the failure is a `ZeroDivisionError`, not a configuration
error raised before work begins. -/
theorem C4_witness :
    (0 : ℚ) ≤ 0
    ∧ find_matches_optimized [⟨7, 2, 3⟩] [] (0 : ℚ) = .error .zeroDivisionError := by
  refine ⟨le_refl 0, ?_⟩
  rw [C4_no_validation [⟨7, 2, 3⟩] [] (le_refl 0)]
  decide

/-- Claim C5: `get_grid_key` is true mathematical floor division
(coordinates of any sign) for every positive cell size, and —
consequently, whenever the derived cell size is positive — inputs with
negative coordinates (as any others) yield identical match sets between
the grid and brute-force approaches. -/
theorem C5_floor_division :
    (∀ x y c : Int, 0 < c →
      get_grid_key x y c = (⌊(x : ℚ) / (c : ℚ)⌋, ⌊(y : ℚ) / (c : ℚ)⌋))
    ∧ (∀ (ds : List Driver) (ps : List Package) (m : ℚ), 0 < pyInt m →
        ∃ l, find_matches_optimized ds ps m = .ok l
          ∧ (matchPairs l).toFinset
              = (matchPairs (find_matches_brute_force ds ps m)).toFinset) := by
  constructor
  · intro x y c hc
    rw [get_grid_key, fdiv_eq_floor x hc, fdiv_eq_floor y hc]
  · intro ds ps m hs
    obtain ⟨l, hok, hperm⟩ := optimized_perm_brute hs ds ps
    exact ⟨l, hok, List.toFinset_eq_of_perm _ _ (hperm.map _)⟩

/-- Claim C5, witness: floor behaviour at the negative coordinate `-7`
and match-set parity on an all-negative-coordinate instance. -/
theorem C5_witness :
    ((0 : Int) < 2
      ∧ get_grid_key (-7) 3 2 = (⌊((-7 : Int) : ℚ) / ((2 : Int) : ℚ)⌋,
          ⌊((3 : Int) : ℚ) / ((2 : Int) : ℚ)⌋))
    ∧ (0 < pyInt 5
      ∧ ∃ l, find_matches_optimized [⟨1, -3, -4⟩] [⟨2, -5, -5, "high"⟩] 5 = .ok l
          ∧ (matchPairs l).toFinset = (matchPairs (find_matches_brute_force
              [⟨1, -3, -4⟩] [⟨2, -5, -5, "high"⟩] 5)).toFinset) :=
  ⟨⟨by decide, C5_floor_division.1 (-7) 3 2 (by decide)⟩,
   ⟨by decide, C5_floor_division.2 _ _ 5 (by decide)⟩⟩

/-- Claim C6: a successful optimized run lists matches in agent-major
order (drivers in input order), within one driver in the fixed 3×3
neighbor-cell order (`i` outer from −1 to 1, `j` inner from −1 to 1),
and within one cell in builder insertion order, i.e. package input
order. -/
theorem C6_output_order (ds : List Driver) (ps : List Package) (m : ℚ)
    (hs : pyInt m ≠ 0) :
    find_matches_optimized ds ps m
      = .ok (ds.flatMap (fun d =>
          neighborOffsets.flatMap (fun o =>
            (ps.filter (fun p => decide (get_grid_key p.x p.y (pyInt m)
                = ((get_grid_key d.x d.y (pyInt m)).1 + o.1,
                   (get_grid_key d.x d.y (pyInt m)).2 + o.2)))).filterMap
              (emitOpt d m)))) :=
  optimized_normal_form hs ds ps

set_option maxHeartbeats 1000000 in
/-- Claim C6, witness: one driver and two matching packages at
`max_distance = 3`; within the driver, package 20 (cell `(0,0)`, the
driver's own cell, scanned fifth) precedes package 21 (cell `(1,0)`,
scanned eighth), although package 21 is nearer in the input order. -/
theorem C6_witness :
    pyInt (3 : ℚ) ≠ 0
    ∧ find_matches_optimized [⟨1, 2, 0⟩]
        [⟨21, 3, 0, "low"⟩, ⟨20, 1, 0, "high"⟩] 3
      = .ok [⟨1, 20, 1⟩, ⟨1, 21, 1⟩] := by
  refine ⟨by decide, ?_⟩
  rw [C6_output_order [⟨1, 2, 0⟩] [⟨21, 3, 0, "low"⟩, ⟨20, 1, 0, "high"⟩] 3
    (by decide)]
  decide

/-- Claim C7: for a nonzero cell size, every bucket of the built grid is
exactly the input-order sublist of packages keyed to it (giving order
preservation and, for an absent key, the empty sequence rather than an
error), and the concatenation of all buckets is a permutation of the
package list — no package dropped or duplicated. -/
theorem C7_grid_invariants (ps : List Package) (c : Int) (hc : c ≠ 0) :
    (∀ k, gridFind (buildGrid ps c) k
        = ps.filter (fun p => decide (get_grid_key p.x p.y c = k)))
    ∧ ((buildGrid ps c).flatMap (fun e => e.2)).Perm ps
    ∧ (∀ k, (∀ p ∈ ps, get_grid_key p.x p.y c ≠ k) →
        gridFind (buildGrid ps c) k = []) := by
  refine ⟨gridFind_buildGrid ps c, flatten_buildGrid ps c, fun k hk => ?_⟩
  rw [gridFind_buildGrid]
  exact List.filter_eq_nil_iff.mpr (fun p hp => by simpa using hk p hp)

/-- Claim C7, witness: one package at `(3,3)` with cell size 2 lands in
bucket `(1,1)`, and the absent key `(5,5)` yields the empty bucket. -/
theorem C7_witness :
    (2 : Int) ≠ 0
    ∧ gridFind (buildGrid [⟨1, 3, 3, "high"⟩] 2) (1, 1) = [⟨1, 3, 3, "high"⟩]
    ∧ gridFind (buildGrid [⟨1, 3, 3, "high"⟩] 2) (5, 5) = [] := by
  refine ⟨by decide, ?_, ?_⟩
  · rw [(C7_grid_invariants [⟨1, 3, 3, "high"⟩] 2 (by decide)).1 (1, 1)]
    decide
  · rw [(C7_grid_invariants [⟨1, 3, 3, "high"⟩] 2 (by decide)).1 (5, 5)]
    decide

set_option maxHeartbeats 1000000 in
/-- Claim C8: neither algorithm reads `priority` — on package lists that
agree on `id`, `x` and `y` and differ only in priorities, both emit
identical match lists (and identical errors). -/
theorem C8_priority_noninterference (ds : List Driver) (ps ps' : List Package)
    (m : ℚ) (h : List.Forall₂ samePos ps ps') :
    find_matches_optimized ds ps m = find_matches_optimized ds ps' m
    ∧ find_matches_brute_force ds ps m = find_matches_brute_force ds ps' m := by
  have hnil : (ps = []) ↔ (ps' = []) := by
    rw [← List.length_eq_zero, ← List.length_eq_zero, h.length_eq]
  constructor
  · by_cases hs : pyInt m = 0
    · by_cases hne : ps = [] ∧ ds = []
      · obtain ⟨hps, hds⟩ := hne
        have hps' : ps' = [] := hnil.mp hps
        subst hps; subst hds; subst hps'
        rfl
      · have hne2 : ps ≠ [] ∨ ds ≠ [] := by tauto
        have hne2' : ps' ≠ [] ∨ ds ≠ [] := by tauto
        simp only [find_matches_optimized]
        rw [if_pos ⟨hs, hne2⟩, if_pos ⟨hs, hne2'⟩]
    · rw [optimized_normal_form hs ds ps, optimized_normal_form hs ds ps']
      refine congrArg Except.ok ?_
      refine congrArg (List.flatMap ds) (funext fun d => ?_)
      refine congrArg (List.flatMap neighborOffsets) (funext fun o => ?_)
      rw [List.filterMap_filter, List.filterMap_filter]
      refine forall2_filterMap_eq ?_ h
      intro a b hab
      rw [samePos_get_grid_key hab, samePos_emitOpt hab]
  · rw [find_matches_brute_force, find_matches_brute_force]
    refine congrArg (List.flatMap ds) (funext fun d => ?_)
    refine forall2_filterMap_eq ?_ h
    intro a b hab
    exact samePos_bruteEmit hab d m

/-- Claim C8, witness: the same package once with priority "high" and
once with priority "low". -/
theorem C8_witness :
    List.Forall₂ samePos [⟨1, 2, 3, "high"⟩] [⟨1, 2, 3, "low"⟩]
    ∧ find_matches_optimized [⟨4, 2, 3⟩] [⟨1, 2, 3, "high"⟩] 50
        = find_matches_optimized [⟨4, 2, 3⟩] [⟨1, 2, 3, "low"⟩] 50 := by
  have hf : List.Forall₂ samePos [⟨1, 2, 3, "high"⟩] [(⟨1, 2, 3, "low"⟩ : Package)] :=
    List.Forall₂.cons ⟨rfl, rfl, rfl⟩ List.Forall₂.nil
  exact ⟨hf, (C8_priority_noninterference [⟨4, 2, 3⟩] _ _ 50 hf).1⟩

/-- Claim C9: the bounding-box pre-filter is conservative — squared
distance below `max_distance ^ 2` forces both coordinate gaps within
`max_distance` — so removing the pre-filter leaves the output of
`find_matches_optimized` unchanged for every positive threshold. -/
theorem C9_prefilter_conservative :
    (∀ (d : Driver) (p : Package) (m : ℚ), 0 < m →
      ((dist_sq d p : ℤ) : ℚ) < m ^ 2 →
        |((d.x - p.x : Int) : ℚ)| ≤ m ∧ |((d.y - p.y : Int) : ℚ)| ≤ m)
    ∧ (∀ (ds : List Driver) (ps : List Package) (m : ℚ), 0 < m →
        find_matches_optimized ds ps m = find_matches_optimized_nofilter ds ps m) := by
  refine ⟨fun d p m hm h => ?_, fun ds ps m hm => optimized_eq_nofilter hm ds ps⟩
  obtain ⟨hx, hy⟩ := abs_coords_lt hm h
  exact ⟨hx.le, hy.le⟩

/-- Claim C9, witness at `max_distance = 50` on the 3-4-5 pair scaled by
ten. -/
theorem C9_witness :
    (0 : ℚ) < 50
    ∧ find_matches_optimized [⟨1, 0, 0⟩] [⟨2, 30, 40, "high"⟩] 50
        = find_matches_optimized_nofilter [⟨1, 0, 0⟩] [⟨2, 30, 40, "high"⟩] 50 :=
  ⟨by norm_num, C9_prefilter_conservative.2 _ _ 50 (by norm_num)⟩

end Router

namespace LogStats

/-- Claim C10: on equal-length lists `pearson_correlation` is total — it
never raises — and returns the source's `0.0` (encoded `(0, 1)`) both
when the lists have fewer than two elements and when the denominator
(the product of the squared deviations) is zero. -/
theorem C10_pearson_total (xs ys : List ℚ) (hlen : xs.length = ys.length) :
    (∃ v, pearson_correlation xs ys = .ok v)
    ∧ (xs.length < 2 → pearson_correlation xs ys = .ok (0, 1))
    ∧ (sqDev xs * sqDev ys = 0 → pearson_correlation xs ys = .ok (0, 1)) := by
  by_cases h2 : xs.length < 2
  · simp only [pearson_correlation]
    rw [if_pos h2]
    exact ⟨⟨(0, 1), rfl⟩, fun _ => rfl, fun _ => rfl⟩
  · have hys : ¬(ys.length = 0) := by rw [← hlen]; omega
    simp only [pearson_correlation]
    rw [if_neg h2, if_neg hys]
    by_cases hd : sqDev xs * sqDev ys = 0
    · rw [if_neg (not_not_intro hd)]
      exact ⟨⟨(0, 1), rfl⟩, fun hlt => absurd hlt h2, fun _ => rfl⟩
    · rw [if_pos hd]
      exact ⟨⟨_, rfl⟩, fun hlt => absurd hlt h2, fun hz => absurd hz hd⟩

/-- Claim C10, witness: `xs = [1, 1]` has zero squared deviation, so the
correlation against `ys = [2, 3]` is the guarded `0.0`, with no
division-by-zero error. -/
theorem C10_witness :
    ([(1 : ℚ), 1].length = [(2 : ℚ), 3].length)
    ∧ pearson_correlation [(1 : ℚ), 1] [(2 : ℚ), 3] = .ok (0, 1) := by
  refine ⟨rfl, ?_⟩
  exact (C10_pearson_total [(1 : ℚ), 1] [(2 : ℚ), 3] rfl).2.2
    (by norm_num [sqDev, meanQ])

end LogStats
